import Mathlib

/-!
Verification of the quacc recipe layer (Gaussian and NewtonNet recipes).

The parameter-merge utility, structure fetch, calculator runner and
result summarizers live outside the extracted sources; they are modelled
from the specification, as marked in their doc comments.  The Gaussian
recipe functions (`static_job`, `relax_job`, `_base_job`) and their
default parameter tables are embedded directly from
`src/quacc/recipes/gaussian/core.py`.
-/

/-- A calculator option value: string, number, list of strings, or the
Python `None` sentinel (`null`) that marks a key for removal. -/
inductive Value where
  | str (s : String)
  | num (n : Int)
  | list (l : List String)
  | null
deriving DecidableEq, Repr

/-- A parameter set: an ordered mapping from option name to value,
modelled as an association list (Python dicts keep insertion order). -/
abbrev ParamSet := List (String × Value)

/-- The keys of a parameter set, in order. -/
def keys (d : ParamSet) : List String := d.map Prod.fst

/-- A parameter set arising from a Python dict has pairwise distinct keys. -/
def NodupKeys (d : ParamSet) : Prop := (keys d).Nodup

instance (d : ParamSet) : Decidable (NodupKeys d) :=
  inferInstanceAs (Decidable (keys d).Nodup)

/-- Look up a key in a parameter set. -/
def getVal (d : ParamSet) (k : String) : Option Value :=
  (d.find? (fun p => p.1 == k)).map Prod.snd

/-- Replace the value at a key, or append the binding when the key is
absent (the effect of a Python dict update for one key). -/
def setKey : ParamSet → String → Value → ParamSet
  | [], k, v => [(k, v)]
  | p :: rest, k, v => if p.1 == k then (k, v) :: rest else p :: setKey rest k v

/-- Python dict update: fold the bindings of `d2` over `d1`. -/
def dictUpdate (d1 d2 : ParamSet) : ParamSet :=
  d2.foldl (fun acc p => setKey acc p.1 p.2) d1

/-- Drop every binding whose value is the remove sentinel. -/
def removeNulls (d : ParamSet) : ParamSet :=
  d.filter (fun p => p.2 != Value.null)

/-- Modelled from the spec: `merge_dicts` of `quacc.utils.dicts` (not under
src/).  Per spec section 4.1 it merges overrides onto defaults with either
argument possibly absent, and per spec section 9 the remove-sentinel
semantics is that a sentinel value deletes the key, inferred from the
default tables of `src/quacc/recipes/gaussian/core.py`, which set a default
to the sentinel precisely to keep it out of the flags passed to the
calculator. -/
def merge_dicts (d1 d2 : Option ParamSet) : ParamSet :=
  removeNulls (dictUpdate (d1.getD []) (d2.getD []))

theorem keys_cons (p : String × Value) (rest : ParamSet) :
    keys (p :: rest) = p.1 :: keys rest := rfl

theorem mem_keys_cons (k : String) (p : String × Value) (rest : ParamSet) :
    k ∈ keys (p :: rest) ↔ k = p.1 ∨ k ∈ keys rest := by
  rw [keys_cons, List.mem_cons]

theorem setKey_cons_eq (p : String × Value) (rest : ParamSet) (k : String)
    (v : Value) (h : p.1 = k) : setKey (p :: rest) k v = (k, v) :: rest := by
  simp [setKey, h]

theorem setKey_cons_ne (p : String × Value) (rest : ParamSet) (k : String)
    (v : Value) (h : p.1 ≠ k) : setKey (p :: rest) k v = p :: setKey rest k v := by
  simp [setKey, h]

theorem getVal_setKey_self (d : ParamSet) (k : String) (v : Value) :
    getVal (setKey d k v) k = some v := by
  induction d with
  | nil => simp [setKey, getVal]
  | cons p rest ih =>
      by_cases h : p.1 = k
      · rw [setKey_cons_eq p rest k v h]
        simp [getVal]
      · rw [setKey_cons_ne p rest k v h]
        simpa [getVal, h] using ih

theorem getVal_setKey_ne (d : ParamSet) (k k' : String) (v : Value)
    (h : k' ≠ k) : getVal (setKey d k v) k' = getVal d k' := by
  induction d with
  | nil => simp [setKey, getVal, Ne.symm h]
  | cons p rest ih =>
      by_cases hp : p.1 = k
      · have hp2 : p.1 ≠ k' := by rw [hp]; exact Ne.symm h
        rw [setKey_cons_eq p rest k v hp]
        simp [getVal, Ne.symm h, hp2]
      · rw [setKey_cons_ne p rest k v hp]
        by_cases hp' : p.1 = k'
        · simp [getVal, hp']
        · simpa [getVal, hp'] using ih

theorem keys_setKey_mem (d : ParamSet) (k : String) (v : Value)
    (h : k ∈ keys d) : keys (setKey d k v) = keys d := by
  induction d with
  | nil => simp [keys] at h
  | cons p rest ih =>
      by_cases hp : p.1 = k
      · rw [setKey_cons_eq p rest k v hp, keys_cons, keys_cons, hp]
      · have h' : k ∈ keys rest := by
          rcases (mem_keys_cons k p rest).mp h with h1 | h2
          · exact absurd h1.symm hp
          · exact h2
        rw [setKey_cons_ne p rest k v hp, keys_cons, keys_cons, ih h']

theorem keys_setKey_not_mem (d : ParamSet) (k : String) (v : Value)
    (h : k ∉ keys d) : keys (setKey d k v) = keys d ++ [k] := by
  induction d with
  | nil => simp [setKey, keys]
  | cons p rest ih =>
      have hp : p.1 ≠ k := fun hc => h ((mem_keys_cons k p rest).mpr (Or.inl hc.symm))
      have h' : k ∉ keys rest := fun hc => h ((mem_keys_cons k p rest).mpr (Or.inr hc))
      rw [setKey_cons_ne p rest k v hp, keys_cons, keys_cons, ih h']
      simp

theorem nodupKeys_setKey (d : ParamSet) (k : String) (v : Value)
    (h : NodupKeys d) : NodupKeys (setKey d k v) := by
  by_cases hm : k ∈ keys d
  · unfold NodupKeys
    rw [keys_setKey_mem d k v hm]
    exact h
  · unfold NodupKeys
    rw [keys_setKey_not_mem d k v hm]
    simpa [List.nodup_append] using ⟨h, fun hc => hm hc⟩

theorem getVal_dictUpdate_not_mem (d2 : ParamSet) :
    ∀ d1 k, k ∉ keys d2 → getVal (dictUpdate d1 d2) k = getVal d1 k := by
  induction d2 with
  | nil => intro d1 k _; rfl
  | cons p rest ih =>
      intro d1 k hk
      have hk1 : k ≠ p.1 := fun hc => hk ((mem_keys_cons k p rest).mpr (Or.inl hc))
      have hk2 : k ∉ keys rest := fun hc => hk ((mem_keys_cons k p rest).mpr (Or.inr hc))
      have step : dictUpdate d1 (p :: rest) = dictUpdate (setKey d1 p.1 p.2) rest := rfl
      rw [step, ih _ _ hk2, getVal_setKey_ne _ _ _ _ hk1]

theorem getVal_dictUpdate_mem (d2 : ParamSet) :
    ∀ d1 k v, NodupKeys d2 → getVal d2 k = some v →
      getVal (dictUpdate d1 d2) k = some v := by
  induction d2 with
  | nil => intro d1 k v _ hget; simp [getVal] at hget
  | cons p rest ih =>
      intro d1 k v hnd hget
      have hnd' : NodupKeys rest ∧ p.1 ∉ keys rest := by
        have h2 := hnd
        unfold NodupKeys at h2
        rw [keys_cons, List.nodup_cons] at h2
        exact ⟨h2.2, h2.1⟩
      have step : dictUpdate d1 (p :: rest) = dictUpdate (setKey d1 p.1 p.2) rest := rfl
      by_cases h : p.1 = k
      · subst h
        have hv : p.2 = v := by simpa [getVal] using hget
        rw [step, getVal_dictUpdate_not_mem rest _ _ hnd'.2, ← hv]
        exact getVal_setKey_self d1 p.1 p.2
      · have hrest : getVal rest k = some v := by
          simpa [getVal, h] using hget
        exact step ▸ ih (setKey d1 p.1 p.2) k v hnd'.1 hrest

theorem nodupKeys_dictUpdate (d2 : ParamSet) :
    ∀ d1, NodupKeys d1 → NodupKeys (dictUpdate d1 d2) := by
  induction d2 with
  | nil => intro d1 h; exact h
  | cons p rest ih =>
      intro d1 h
      exact ih (setKey d1 p.1 p.2) (nodupKeys_setKey d1 p.1 p.2 h)

theorem getVal_none_of_not_mem (d : ParamSet) (k : String)
    (h : k ∉ keys d) : getVal d k = Option.none := by
  induction d with
  | nil => rfl
  | cons p rest ih =>
      have hp : p.1 ≠ k := fun hc => h ((mem_keys_cons k p rest).mpr (Or.inl hc.symm))
      have h' : k ∉ keys rest := fun hc => h ((mem_keys_cons k p rest).mpr (Or.inr hc))
      simpa [getVal, hp] using ih h'

theorem not_mem_keys_removeNulls (d : ParamSet) (k : String)
    (h : k ∉ keys d) : k ∉ keys (removeNulls d) := by
  intro hc
  apply h
  rcases List.mem_map.mp hc with ⟨p, hp, hpk⟩
  exact List.mem_map.mpr ⟨p, List.mem_of_mem_filter hp, hpk⟩

theorem removeNulls_cons_keep (q : String × Value) (rest : ParamSet)
    (h : (q.2 != Value.null) = true) :
    removeNulls (q :: rest) = q :: removeNulls rest := by
  simp [removeNulls, List.filter_cons, h]

theorem removeNulls_cons_drop (q : String × Value) (rest : ParamSet)
    (h : ¬((q.2 != Value.null) = true)) :
    removeNulls (q :: rest) = removeNulls rest := by
  simp [removeNulls, List.filter_cons, h]

theorem getVal_removeNulls_some (d : ParamSet) (k : String) (v : Value)
    (hv : v ≠ Value.null) (h : getVal d k = some v) :
    getVal (removeNulls d) k = some v := by
  induction d with
  | nil => simp [getVal] at h
  | cons q rest ih =>
      by_cases hq : q.1 = k
      · have hqv : q.2 = v := by simpa [getVal, hq] using h
        have hkeep : (q.2 != Value.null) = true := by
          rw [hqv]
          simpa [bne_iff_ne] using hv
        rw [removeNulls_cons_keep q rest hkeep]
        simp [getVal, hq, hqv]
      · have hrest : getVal rest k = some v := by simpa [getVal, hq] using h
        by_cases hn : (q.2 != Value.null) = true
        · rw [removeNulls_cons_keep q rest hn]
          simpa [getVal, hq] using ih hrest
        · rw [removeNulls_cons_drop q rest hn]
          exact ih hrest

theorem getVal_removeNulls_null (d : ParamSet) (k : String)
    (hnd : NodupKeys d) (h : getVal d k = some Value.null) :
    getVal (removeNulls d) k = Option.none := by
  induction d with
  | nil => rfl
  | cons q rest ih =>
      have hnd' : NodupKeys rest ∧ q.1 ∉ keys rest := by
        have h2 := hnd
        unfold NodupKeys at h2
        rw [keys_cons, List.nodup_cons] at h2
        exact ⟨h2.2, h2.1⟩
      by_cases hq : q.1 = k
      · have hqv : q.2 = Value.null := by simpa [getVal, hq] using h
        have hkrest : k ∉ keys rest := hq ▸ hnd'.2
        have hdrop : ¬((q.2 != Value.null) = true) := by simp [hqv]
        rw [removeNulls_cons_drop q rest hdrop]
        exact getVal_none_of_not_mem _ _ (not_mem_keys_removeNulls rest k hkrest)
      · have hrest : getVal rest k = some Value.null := by simpa [getVal, hq] using h
        have hihl := ih hnd'.1 hrest
        by_cases hn : (q.2 != Value.null) = true
        · rw [removeNulls_cons_keep q rest hn]
          simpa [getVal, hq] using hihl
        · rw [removeNulls_cons_drop q rest hn]
          exact hihl

theorem removeNulls_eq_self (d : ParamSet)
    (h : ∀ p ∈ d, p.2 ≠ Value.null) : removeNulls d = d := by
  induction d with
  | nil => rfl
  | cons q rest ih =>
      have hq : (q.2 != Value.null) = true := by
        simpa [bne_iff_ne] using h q (by simp)
      rw [removeNulls_cons_keep q rest hq, ih (fun p hp => h p (by simp [hp]))]

/-- Claim C1 (amended): for every defaults mapping `D` and overrides mapping
`O` (each with distinct keys, as Python dicts have), `merge_dicts` keeps every
key present only in `D` whose value is not the remove sentinel, replaces the
value of every key of `O` whose value is not the remove sentinel, deletes
every key of `O` whose value is the remove sentinel (even when that key is in
`D`), also deletes every key of `D` whose default value is the remove
sentinel, and `merge_dicts D none` returns `D` itself whenever `D` holds no
sentinel value (both inputs are never modified: the merge is a pure
function). -/
theorem merge_dicts_amended_spec (D O : ParamSet) (hD : NodupKeys D) (hO : NodupKeys O) :
    (∀ k v, k ∉ keys O → getVal D k = some v → v ≠ Value.null →
        getVal (merge_dicts (some D) (some O)) k = some v)
  ∧ (∀ k v, getVal O k = some v → v ≠ Value.null →
        getVal (merge_dicts (some D) (some O)) k = some v)
  ∧ (∀ k, getVal O k = some Value.null →
        getVal (merge_dicts (some D) (some O)) k = Option.none)
  ∧ (∀ k, k ∉ keys O → getVal D k = some Value.null →
        getVal (merge_dicts (some D) (some O)) k = Option.none)
  ∧ ((∀ p ∈ D, p.2 ≠ Value.null) → merge_dicts (some D) Option.none = D) := by
  have hndu : NodupKeys (dictUpdate D O) := nodupKeys_dictUpdate O D hD
  refine ⟨?_, ?_, ?_, ?_, ?_⟩
  · intro k v hkO hgD hv
    have h1 : getVal (dictUpdate D O) k = some v := by
      rw [getVal_dictUpdate_not_mem O D k hkO]
      exact hgD
    exact getVal_removeNulls_some _ _ _ hv h1
  · intro k v hgO hv
    exact getVal_removeNulls_some _ _ _ hv (getVal_dictUpdate_mem O D k v hO hgO)
  · intro k hgO
    exact getVal_removeNulls_null _ _ hndu (getVal_dictUpdate_mem O D k _ hO hgO)
  · intro k hkO hgD
    have h1 : getVal (dictUpdate D O) k = some Value.null := by
      rw [getVal_dictUpdate_not_mem O D k hkO]
      exact hgD
    exact getVal_removeNulls_null _ _ hndu h1
  · intro hfree
    exact removeNulls_eq_self D hfree

/-- Claim C1, counterexample to the claim as stated: for a defaults mapping
that binds a key to the remove sentinel (exactly what `relax_job` builds for
`freq` when its `freq` argument is false), merging with absent overrides does
not return the defaults unchanged — the sentinel-valued key is stripped. -/
theorem merge_dicts_sentinel_default_counterexample :
    merge_dicts (some [("freq", Value.null)]) Option.none ≠ [("freq", Value.null)] := by
  decide

/-- A concrete defaults mapping used to instantiate the merge theorems. -/
def demoDefaults : ParamSet := [("mem", Value.str "16GB"), ("freq", Value.null)]

/-- A concrete overrides mapping used to instantiate the merge theorems. -/
def demoSwaps : ParamSet := [("basis", Value.str "sto-3g"), ("mem", Value.null)]

/-- Claim C1, witness: the amended merge specification applied at concrete
defaults and overrides. -/
theorem merge_dicts_amended_spec_witness :
    getVal (merge_dicts (some demoDefaults) (some demoSwaps)) "basis"
      = some (Value.str "sto-3g")
  ∧ getVal (merge_dicts (some demoDefaults) (some demoSwaps)) "mem" = Option.none := by
  have h := merge_dicts_amended_spec demoDefaults demoSwaps (by decide) (by decide)
  exact ⟨h.2.1 "basis" (Value.str "sto-3g") (by decide) (by decide),
         h.2.2.1 "mem" (by decide)⟩

/-- The `static_job` calculator defaults table, embedded from
`src/quacc/recipes/gaussian/core.py` (the `nprocshared` entry is
`multiprocessing.cpu_count()`, passed here as the parameter `nproc`). -/
def static_defaults (nproc : Int) (xc basis : String) (charge mult : Int) : ParamSet :=
  [("mem", Value.str "16GB"),
   ("chk", Value.str "Gaussian.chk"),
   ("nprocshared", Value.num nproc),
   ("xc", Value.str xc),
   ("basis", Value.str basis),
   ("charge", Value.num charge),
   ("mult", Value.num mult),
   ("sp", Value.str ""),
   ("scf", Value.list ["maxcycle=250", "xqc"]),
   ("integral", Value.str "ultrafine"),
   ("nosymmetry", Value.str ""),
   ("pop", Value.str "CM5"),
   ("gfinput", Value.str ""),
   ("ioplist", Value.list ["6/7=3", "2/9=2000"])]

/-- The `relax_job` calculator defaults table, embedded from
`src/quacc/recipes/gaussian/core.py` (the `freq` entry is
`"" if freq else None`). -/
def relax_defaults (nproc : Int) (xc basis : String) (charge mult : Int)
    (freq : Bool) : ParamSet :=
  [("mem", Value.str "16GB"),
   ("chk", Value.str "Gaussian.chk"),
   ("nprocshared", Value.num nproc),
   ("xc", Value.str xc),
   ("basis", Value.str basis),
   ("charge", Value.num charge),
   ("mult", Value.num mult),
   ("opt", Value.str ""),
   ("pop", Value.str "CM5"),
   ("scf", Value.list ["maxcycle=250", "xqc"]),
   ("integral", Value.str "ultrafine"),
   ("nosymmetry", Value.str ""),
   ("freq", if freq then Value.str "" else Value.null),
   ("ioplist", Value.list ["2/9=2000"])]

/-- Claim C8: for every charge, spin multiplicity, functional, basis and
processor count, with `calc_swaps` absent, the merged flags mapping that
`relax_job` hands to the calculator constructor contains the key `freq`
(mapped to the empty string) exactly when the `freq` argument is true; when
`freq` is false the key, whose default value is the remove sentinel, is
absent from the flags. -/
theorem relax_job_freq_flag (nproc : Int) (xc basis : String) (charge mult : Int)
    (freq : Bool) :
    getVal (merge_dicts (some (relax_defaults nproc xc basis charge mult freq))
        Option.none) "freq"
      = (if freq then some (Value.str "") else Option.none) := by
  cases freq <;> rfl

/-- An atomic structure: positions plus species, the opaque value object of
spec section 3 (equality is by positions and species). -/
structure AtomicStructure where
  positions : List (ℚ × ℚ × ℚ)
  species : List Nat
deriving DecidableEq, Repr

/-- The argument a recipe accepts: either a bare structure or a wrapper dict
holding the structure under the key `atoms`. -/
inductive AtomsArg where
  | plain (s : AtomicStructure)
  | wrapper (s : AtomicStructure)
deriving DecidableEq, Repr

/-- Modelled from the spec: `fetch_atoms` (imported by the Gaussian recipes
from the quacc package root, not under src/): extract the structure from a
wrapper container exposing an `atoms` key, otherwise return the input
unchanged. -/
def fetch_atoms : AtomsArg → AtomicStructure
  | AtomsArg.plain s => s
  | AtomsArg.wrapper s => s

/-- The error taxonomy of spec section 7. -/
inductive RecipeError where
  | CalculationFailed (msg : String)
  | ParseError (msg : String)
  | ConfigurationError (msg : String)
  | StructureError (msg : String)
deriving DecidableEq, Repr

/-- The state of the Gaussian log file after the external process ran. -/
inductive LogFile where
  | empty
  | truncated
  | complete (energy : ℚ)
deriving DecidableEq, Repr

/-- Modelled from the spec: the external log-parsing library (cclib): a
complete log yields the parsed energy, an empty or truncated log yields
nothing. -/
def parseLog : LogFile → Option ℚ
  | LogFile.complete e => some e
  | _ => Option.none

/-- The observable behaviour of one external calculator invocation: the
process either crashes or finishes with a final structure and a log file. -/
inductive CalcOutcome where
  | crashed (msg : String)
  | finished (final : AtomicStructure) (log : LogFile)
deriving Repr

/-- A value in a job-result mapping (spec section 3 JobResult schema). -/
inductive RVal where
  | str (s : String)
  | int (i : Int)
  | nat (n : Nat)
  | rat (q : ℚ)
  | ratList (l : List ℚ)
  | atomsV (a : AtomicStructure)
  | dict (entries : List (String × RVal))

/-- A job result: an ordered mapping from key to value. -/
abbrev JobResult := List (String × RVal)

/-- Key membership in a job-result mapping. -/
def hasKey (j : JobResult) (k : String) : Bool := j.any (fun p => p.1 == k)

/-- Look up a key in a job-result mapping. -/
def getR (j : JobResult) (k : String) : Option RVal :=
  (j.find? (fun p => p.1 == k)).map Prod.snd

/-- The four top-level keys every job result must carry. -/
def hasTopKeys (j : JobResult) : Bool :=
  hasKey j "atoms" && hasKey j "results" && hasKey j "natoms"
    && hasKey j "spin_multiplicity"

/-- Modelled from the spec: `run_calc` of `quacc.runners.calc` (not under
src/): attach the calculator constructed from the merged flags, execute the
external process synchronously in a scoped working directory, and hand back
the post-run structure together with the geometry/log file; a failed process
propagates `CalculationFailed` instead of returning stale state. -/
def run_calc (outcome : CalcOutcome) (flags : ParamSet) (a : AtomicStructure) :
    Except RecipeError (AtomicStructure × LogFile) :=
  match outcome, flags, a with
  | CalcOutcome.crashed m, _, _ => Except.error (RecipeError.CalculationFailed m)
  | CalcOutcome.finished f log, _, _ => Except.ok (f, log)

/-- Modelled from the spec: `cclib_summarize_run` of `quacc.schemas.cclib`
(not under src/): parse the textual log; a malformed or truncated log raises
`ParseError`, a complete one produces the JobResult schema with the parsed
energy under `results` and the additional fields appended verbatim. -/
def cclib_summarize_run (a : AtomicStructure) (log : LogFile)
    (charge spin_multiplicity : Int) (additional_fields : JobResult) :
    Except RecipeError JobResult :=
  match parseLog log with
  | Option.none => Except.error (RecipeError.ParseError "unable to parse log file")
  | Option.some e =>
      Except.ok ([("atoms", RVal.atomsV a),
        ("results", RVal.dict [("energy", RVal.rat e)]),
        ("natoms", RVal.nat a.positions.length),
        ("spin_multiplicity", RVal.int spin_multiplicity),
        ("charge", RVal.int charge)] ++ additional_fields)

/-- `_base_job` embedded from `src/quacc/recipes/gaussian/core.py`: fetch
the structure, merge the defaults with the swaps, run the calculator on the
merged flags, then summarize the log.  The behaviour of the external
process enters as the `outcome` parameter. -/
def _base_job (outcome : CalcOutcome) (atoms : AtomsArg)
    (charge spin_multiplicity : Int) (defaults calc_swaps : Option ParamSet)
    (additional_fields : JobResult) : Except RecipeError JobResult :=
  let a := fetch_atoms atoms
  let flags := merge_dicts defaults calc_swaps
  match run_calc outcome flags a with
  | Except.error e => Except.error e
  | Except.ok fl =>
      cclib_summarize_run fl.1 fl.2 charge spin_multiplicity additional_fields

/-- `static_job` embedded from `src/quacc/recipes/gaussian/core.py`
(`nprocshared` is `multiprocessing.cpu_count()`, passed as `nproc`). -/
def static_job (outcome : CalcOutcome) (nproc : Int) (atoms : AtomsArg)
    (charge spin_multiplicity : Int) (xc basis : String)
    (calc_swaps : Option ParamSet) : Except RecipeError JobResult :=
  _base_job outcome atoms charge spin_multiplicity
    (some (static_defaults nproc xc basis charge spin_multiplicity)) calc_swaps
    [("name", RVal.str "Gaussian Static")]

/-- `relax_job` embedded from `src/quacc/recipes/gaussian/core.py`. -/
def relax_job (outcome : CalcOutcome) (nproc : Int) (atoms : AtomsArg)
    (charge spin_multiplicity : Int) (xc basis : String) (freq : Bool)
    (calc_swaps : Option ParamSet) : Except RecipeError JobResult :=
  _base_job outcome atoms charge spin_multiplicity
    (some (relax_defaults nproc xc basis charge spin_multiplicity freq)) calc_swaps
    [("name", RVal.str "Gaussian Relax")]

/-- Claim C9: `fetch_atoms` applied to a wrapper mapping with key `atoms`
and value `X` returns `X`, and applied to a non-wrapper input `X` returns
`X` itself (the identity, with no copy taken). -/
theorem fetch_atoms_spec (X : AtomicStructure) :
    fetch_atoms (AtomsArg.wrapper X) = X ∧ fetch_atoms (AtomsArg.plain X) = X :=
  ⟨rfl, rfl⟩

/-- Claim C10: although `relax_job` annotates its first argument as a bare
structure, calling it with the wrapper mapping holding `X` under the key
`atoms` produces the same result as calling it with `X` itself, because the
shared `_base_job` normalizes its input through `fetch_atoms` before any
other step. -/
theorem relax_job_wrapper_equiv (outcome : CalcOutcome) (nproc : Int)
    (X : AtomicStructure) (charge mult : Int) (xc basis : String) (freq : Bool)
    (calc_swaps : Option ParamSet) :
    relax_job outcome nproc (AtomsArg.wrapper X) charge mult xc basis freq calc_swaps
      = relax_job outcome nproc (AtomsArg.plain X) charge mult xc basis freq calc_swaps :=
  rfl

/-- Claim C3: when the external calculator process fails, the Gaussian base
job propagates `CalculationFailed`; when the run finishes but the log cannot
be parsed, it propagates `ParseError`; and every mapping it does return
carries the full top-level key schema with a freshly parsed `results` entry,
never missing keys. -/
theorem base_job_error_propagation (outcome : CalcOutcome) (atoms : AtomsArg)
    (charge mult : Int) (defaults calc_swaps : Option ParamSet)
    (fields : JobResult) :
    (∀ m, outcome = CalcOutcome.crashed m →
        _base_job outcome atoms charge mult defaults calc_swaps fields
          = Except.error (RecipeError.CalculationFailed m))
  ∧ (∀ f log, outcome = CalcOutcome.finished f log → parseLog log = Option.none →
        _base_job outcome atoms charge mult defaults calc_swaps fields
          = Except.error (RecipeError.ParseError "unable to parse log file"))
  ∧ (∀ r, _base_job outcome atoms charge mult defaults calc_swaps fields
          = Except.ok r →
        hasTopKeys r = true
          ∧ ∃ e, getR r "results" = some (RVal.dict [("energy", RVal.rat e)])) := by
  refine ⟨?_, ?_, ?_⟩
  · intro m hm
    subst hm
    rfl
  · intro f log hm hp
    subst hm
    show cclib_summarize_run f log charge mult fields = _
    unfold cclib_summarize_run
    rw [hp]
  · intro r hr
    cases outcome with
    | crashed m => simp [_base_job, run_calc] at hr
    | finished f log =>
        cases hl : parseLog log with
        | none => simp [_base_job, run_calc, cclib_summarize_run, hl] at hr
        | some e =>
            simp [_base_job, run_calc, cclib_summarize_run, hl] at hr
            subst hr
            exact ⟨rfl, ⟨e, rfl⟩⟩

/-- A concrete two-atom structure used to instantiate theorems. -/
def demoAtoms : AtomicStructure := ⟨[(0, 0, 0), (1, 0, 0)], [8, 1]⟩

/-- Claim C3, witness: a crashed calculator process at a concrete input
makes the Gaussian base job return `CalculationFailed`. -/
theorem base_job_error_propagation_witness :
    _base_job (CalcOutcome.crashed "non-zero exit") (AtomsArg.plain demoAtoms) 0 1
        Option.none Option.none []
      = Except.error (RecipeError.CalculationFailed "non-zero exit") :=
  (base_job_error_propagation (CalcOutcome.crashed "non-zero exit")
      (AtomsArg.plain demoAtoms) 0 1 Option.none Option.none []).1 "non-zero exit" rfl

/-- Insert a rational before the first element it does not exceed under the
given comparison. -/
def insertBy (le : ℚ → ℚ → Bool) (x : ℚ) : List ℚ → List ℚ
  | [] => [x]
  | y :: ys => if le x y then x :: y :: ys else y :: insertBy le x ys

/-- Insertion sort under the given comparison. -/
def sortBy (le : ℚ → ℚ → Bool) (l : List ℚ) : List ℚ := l.foldr (insertBy le) []

/-- Ascending comparison on mode frequencies. -/
def ascending (a b : ℚ) : Bool := decide (a ≤ b)

/-- Absolute value of a rational, written to evaluate by cases. -/
def rabs (q : ℚ) : ℚ := if q < 0 then -q else q

/-- Comparison by magnitude, used to locate the rotational and
translational modes (the modes of smallest absolute frequency). -/
def byMagnitude (a b : ℚ) : Bool := decide (rabs a ≤ rabs b)

theorem insertBy_length (le : ℚ → ℚ → Bool) (x : ℚ) (l : List ℚ) :
    (insertBy le x l).length = l.length + 1 := by
  induction l with
  | nil => rfl
  | cons y ys ih =>
      simp only [insertBy]
      split
      · simp
      · simp [ih]

theorem sortBy_length (le : ℚ → ℚ → Bool) (l : List ℚ) :
    (sortBy le l).length = l.length := by
  induction l with
  | nil => rfl
  | cons y ys ih =>
      show (insertBy le y (sortBy le ys)).length = ys.length + 1
      rw [insertBy_length, ih]

/-- Number of rotational plus translational modes removed before reporting
vibrations: 5 for a linear molecule, 6 otherwise. -/
def n_rot_trans (linear : Bool) : Nat := if linear then 5 else 6

/-- Modelled from the spec: the kept vibrational modes of the frequency-job
summarizer (not under src/): sort the raw modes by magnitude, remove the 5
or 6 smallest (the rotational/translational block), and report the kept
subset sorted ascending. -/
def vib_kept (raw : List ℚ) (linear : Bool) : List ℚ :=
  sortBy ascending ((sortBy byMagnitude raw).drop (n_rot_trans linear))

/-- The imaginary modes among the kept subset (stored as negatives). -/
def imag_modes (raw : List ℚ) (linear : Bool) : List ℚ :=
  (vib_kept raw linear).filter (fun q => decide (q < 0))

theorem vib_kept_length (raw : List ℚ) (linear : Bool) :
    (vib_kept raw linear).length = raw.length - n_rot_trans linear := by
  unfold vib_kept
  rw [sortBy_length, List.length_drop, sortBy_length]

/-- Modelled from the spec: the NewtonNet frequency job (not under src/):
run the calculator, perform normal-mode analysis on the raw frequencies
obtained from the external Hessian (`raw`), with linearity decided by the
external symmetry analysis (`linear`), and summarize with `vib` and
`thermo` blocks nested under the top-level schema. -/
def nn_freq_job (raw : List ℚ) (linear : Bool) (energy : ℚ) (mult : Int)
    (temperature pressure : ℚ) (atoms : AtomicStructure) : JobResult :=
  [("atoms", RVal.atomsV atoms),
   ("results", RVal.dict [("energy", RVal.rat energy)]),
   ("natoms", RVal.nat atoms.positions.length),
   ("spin_multiplicity", RVal.int mult),
   ("vib", RVal.dict [("results", RVal.dict
      [("vib_freqs_raw", RVal.ratList raw),
       ("vib_freqs", RVal.ratList (vib_kept raw linear)),
       ("n_imag", RVal.nat (imag_modes raw linear).length),
       ("imag_vib_freqs", RVal.ratList (imag_modes raw linear))])]),
   ("thermo", RVal.dict [("results", RVal.dict
      [("energy", RVal.rat energy),
       ("temperature", RVal.rat temperature),
       ("pressure", RVal.rat pressure)])])]

/-- Look up a field of the vibrational results nested in a job result. -/
def getVib (j : JobResult) (k : String) : Option RVal :=
  match getR j "vib" with
  | some (RVal.dict d) =>
      match getR d "results" with
      | some (RVal.dict r) => getR r k
      | _ => Option.none
  | _ => Option.none

/-- Raw mode list of the water test molecule, in tenths of reciprocal
centimeters: nine modes, six near zero (rotations and translations), three
genuine vibrations. -/
def waterRaw : List ℚ :=
  [-2, -1, 0, 1, 2, 3, 18140, 37500, 40900]

/-- Raw mode list of the methyl-radical test molecule, in tenths of
reciprocal centimeters: twelve modes, six near zero, five genuine real
vibrations and one imaginary mode (the test value -761.5 reciprocal
centimeters, here -7615). -/
def ch3Raw : List ℚ :=
  [-7615, -3, -1, 1, 2, 4, 6, 13960, 14040, 31030, 32920, 32930]

/-- Claim C2: the frequency job removes exactly 6 rotational/translational
modes from the raw mode list of a nonlinear molecule (5 for a linear one)
before reporting the kept vibrational modes; water (3 atoms, nonlinear)
yields 3 kept modes out of 9 raw, the methyl radical (4 atoms, nonlinear)
yields 6 kept modes out of 12 raw with exactly 1 imaginary mode, and the
imaginary count and list are exposed under their own keys, separate from
the real-mode list. -/
theorem freq_job_mode_counts :
    (∀ raw : List ℚ, (vib_kept raw false).length = raw.length - 6)
  ∧ (∀ raw : List ℚ, (vib_kept raw true).length = raw.length - 5)
  ∧ (waterRaw.length = 9 ∧ (vib_kept waterRaw false).length = 3
      ∧ (imag_modes waterRaw false).length = 0)
  ∧ (ch3Raw.length = 12 ∧ (vib_kept ch3Raw false).length = 6)
  ∧ (∀ energy mult temperature pressure atoms,
        getVib (nn_freq_job ch3Raw false energy mult temperature pressure atoms)
            "vib_freqs"
          = some (RVal.ratList [-7615, 13960, 14040, 31030, 32920, 32930])
      ∧ getVib (nn_freq_job ch3Raw false energy mult temperature pressure atoms)
            "n_imag"
          = some (RVal.nat 1)
      ∧ getVib (nn_freq_job ch3Raw false energy mult temperature pressure atoms)
            "imag_vib_freqs"
          = some (RVal.ratList [-7615])) := by
  refine ⟨fun raw => vib_kept_length raw false, fun raw => vib_kept_length raw true,
    ⟨rfl, by decide, by decide⟩, ⟨rfl, by decide⟩, ?_⟩
  intro energy mult temperature pressure atoms
  exact ⟨rfl, rfl, rfl⟩

/-- Modelled from the spec: the NewtonNet static job (not under src/): run
the calculator on the input structure and summarize from the in-memory
results; a static job returns the structure unchanged. -/
def nn_static_job (energy : ℚ) (mult : Int) (atoms : AtomicStructure) : JobResult :=
  [("atoms", RVal.atomsV atoms),
   ("results", RVal.dict [("energy", RVal.rat energy)]),
   ("natoms", RVal.nat atoms.positions.length),
   ("spin_multiplicity", RVal.int mult)]

/-- Extract the structure stored under `atoms` in a job result. -/
def resultAtoms (j : JobResult) : Option AtomicStructure :=
  match getR j "atoms" with
  | some (RVal.atomsV a) => some a
  | _ => Option.none

/-- Extract the maximum per-atom force norm from the results block. -/
def resultMaxForce (j : JobResult) : Option ℚ :=
  match getR j "results" with
  | some (RVal.dict r) =>
      match getR r "max_force_norm" with
      | some (RVal.rat q) => some q
      | _ => Option.none
  | _ => Option.none

/-- Modelled from the spec: the force field the external calculator
evaluates — the maximum per-atom force norm as a function of positions. -/
structure ForceField where
  maxForce : List (ℚ × ℚ × ℚ) → ℚ

/-- Modelled from the spec: the external geometry optimizer the relax job
delegates to (not under src/): it produces a new structure (the caller's is
never mutated) whose maximum force norm is below the convergence threshold
`fmax`. -/
structure Optimizer where
  ff : ForceField
  fmax : ℚ
  opt : AtomicStructure → AtomicStructure
  opt_converged : ∀ s, ff.maxForce (opt s).positions < fmax

/-- Modelled from the spec: the NewtonNet relax job (not under src/): run
the external optimizer and summarize the relaxed structure together with
its final maximum force norm. -/
def nn_relax_job (o : Optimizer) (energy : ℚ) (mult : Int)
    (atoms : AtomicStructure) : JobResult :=
  [("atoms", RVal.atomsV (o.opt atoms)),
   ("results", RVal.dict [("energy", RVal.rat energy),
      ("max_force_norm", RVal.rat (o.ff.maxForce (o.opt atoms).positions))]),
   ("natoms", RVal.nat (o.opt atoms).positions.length),
   ("spin_multiplicity", RVal.int mult)]

/-- Claim C4: the static job returns a result whose structure is the input
structure itself, so its positions equal the input positions exactly; the
caller's structure is never mutated (the job is a pure function of it). -/
theorem static_job_preserves_positions (energy : ℚ) (mult : Int)
    (atoms : AtomicStructure) :
    resultAtoms (nn_static_job energy mult atoms) = some atoms
  ∧ (resultAtoms (nn_static_job energy mult atoms)).map AtomicStructure.positions
      = some atoms.positions :=
  ⟨rfl, rfl⟩

/-- Claim C5: for every structure that is not already stationary (its
maximum force norm is at least the convergence threshold), the relax job
returns a structure whose positions differ from the input positions, and
the maximum per-atom force norm in the returned results is below the
configured threshold. -/
theorem relax_job_converges_and_moves (o : Optimizer) (energy : ℚ) (mult : Int)
    (atoms : AtomicStructure) (h : o.fmax ≤ o.ff.maxForce atoms.positions) :
    resultAtoms (nn_relax_job o energy mult atoms) = some (o.opt atoms)
  ∧ (o.opt atoms).positions ≠ atoms.positions
  ∧ resultMaxForce (nn_relax_job o energy mult atoms)
      = some (o.ff.maxForce (o.opt atoms).positions)
  ∧ o.ff.maxForce (o.opt atoms).positions < o.fmax := by
  have hc := o.opt_converged atoms
  refine ⟨rfl, ?_, rfl, hc⟩
  intro he
  rw [he] at hc
  exact absurd h (not_le.mpr hc)

/-- The relaxed position list of the demonstration optimizer. -/
def demoRelaxedPos : List (ℚ × ℚ × ℚ) := [(0, 0, 0), (3, 0, 0)]

/-- A demonstration force field: zero force at the relaxed positions, a
force norm of two anywhere else. -/
def demoFF : ForceField :=
  ⟨fun p => if p = demoRelaxedPos then 0 else 2⟩

/-- A demonstration optimizer: always lands on the relaxed positions, where
the demonstration force field vanishes, with convergence threshold one. -/
def demoOptimizer : Optimizer :=
  ⟨demoFF, 1, fun s => ⟨demoRelaxedPos, s.species⟩, fun s => by
    show demoFF.maxForce demoRelaxedPos < 1
    norm_num [demoFF]⟩

/-- Claim C5, witness: the relax theorem applied to the demonstration
optimizer at a concrete non-stationary input. -/
theorem relax_job_converges_and_moves_witness :
    resultAtoms (nn_relax_job demoOptimizer 0 1 demoAtoms)
        = some (demoOptimizer.opt demoAtoms)
  ∧ (demoOptimizer.opt demoAtoms).positions ≠ demoAtoms.positions
  ∧ resultMaxForce (nn_relax_job demoOptimizer 0 1 demoAtoms)
      = some (demoOptimizer.ff.maxForce (demoOptimizer.opt demoAtoms).positions)
  ∧ demoOptimizer.ff.maxForce (demoOptimizer.opt demoAtoms).positions
      < demoOptimizer.fmax :=
  relax_job_converges_and_moves demoOptimizer 0 1 demoAtoms (by
    show (1 : ℚ) ≤ demoFF.maxForce demoAtoms.positions
    norm_num [demoFF, demoAtoms, demoRelaxedPos])

/-- Modelled from the spec: the composite NewtonNet transition-state job
(not under src/): run the external TS optimizer, summarize, then nest the
complete result of the delegated frequency job under `freq_job`. -/
def ts_job (tsOpt : AtomicStructure → AtomicStructure) (energy : ℚ)
    (raw : List ℚ) (linear : Bool) (mult : Int) (temperature pressure : ℚ)
    (atoms : AtomicStructure) : JobResult :=
  [("atoms", RVal.atomsV (tsOpt atoms)),
   ("results", RVal.dict [("energy", RVal.rat energy)]),
   ("natoms", RVal.nat (tsOpt atoms).positions.length),
   ("spin_multiplicity", RVal.int mult),
   ("freq_job", RVal.dict
      (nn_freq_job raw linear energy mult temperature pressure (tsOpt atoms)))]

/-- Modelled from the spec: the composite NewtonNet IRC job (not under
src/): follow the reaction path with the external IRC optimizer, summarize,
and nest the complete delegated frequency job under `freq_job`. -/
def irc_job (ircOpt : AtomicStructure → AtomicStructure) (energy : ℚ)
    (raw : List ℚ) (linear : Bool) (mult : Int) (temperature pressure : ℚ)
    (atoms : AtomicStructure) : JobResult :=
  [("atoms", RVal.atomsV (ircOpt atoms)),
   ("results", RVal.dict [("energy", RVal.rat energy)]),
   ("natoms", RVal.nat (ircOpt atoms).positions.length),
   ("spin_multiplicity", RVal.int mult),
   ("freq_job", RVal.dict
      (nn_freq_job raw linear energy mult temperature pressure (ircOpt atoms)))]

/-- Modelled from the spec: the quasi-IRC job (not under src/): an IRC
stage followed by a relaxation of the selected endpoint, nesting the
complete `irc_job` sub-result and a final `freq_job` sub-result, threading
the IRC output structure into the relax stage. -/
def quasi_irc_job (ircOpt relaxOpt : AtomicStructure → AtomicStructure)
    (ircEnergy energy : ℚ) (raw : List ℚ) (linear : Bool) (mult : Int)
    (temperature pressure : ℚ) (atoms : AtomicStructure) : JobResult :=
  [("atoms", RVal.atomsV (relaxOpt (ircOpt atoms))),
   ("results", RVal.dict [("energy", RVal.rat energy)]),
   ("natoms", RVal.nat (relaxOpt (ircOpt atoms)).positions.length),
   ("spin_multiplicity", RVal.int mult),
   ("irc_job", RVal.dict
      (irc_job ircOpt ircEnergy raw linear mult temperature pressure atoms)),
   ("freq_job", RVal.dict
      (nn_freq_job raw linear energy mult temperature pressure
        (relaxOpt (ircOpt atoms))))]

/-- Claim C7: each composite TS, IRC and quasi-IRC invocation nests under
its top level the complete result of the delegated frequency job (and, for
quasi-IRC, the complete `irc_job` sub-result); the nested sub-result is the
delegated sub-job's full mapping, keeps the whole schema, and itself
satisfies the frequency-job mode accounting. -/
theorem composite_jobs_nest_subresults
    (tsOpt ircOpt relaxOpt : AtomicStructure → AtomicStructure)
    (ircEnergy energy : ℚ) (raw : List ℚ) (linear : Bool) (mult : Int)
    (temperature pressure : ℚ) (atoms : AtomicStructure) :
    getR (ts_job tsOpt energy raw linear mult temperature pressure atoms) "freq_job"
      = some (RVal.dict
          (nn_freq_job raw linear energy mult temperature pressure (tsOpt atoms)))
  ∧ getR (irc_job ircOpt energy raw linear mult temperature pressure atoms) "freq_job"
      = some (RVal.dict
          (nn_freq_job raw linear energy mult temperature pressure (ircOpt atoms)))
  ∧ getR (quasi_irc_job ircOpt relaxOpt ircEnergy energy raw linear mult
        temperature pressure atoms) "irc_job"
      = some (RVal.dict
          (irc_job ircOpt ircEnergy raw linear mult temperature pressure atoms))
  ∧ getR (quasi_irc_job ircOpt relaxOpt ircEnergy energy raw linear mult
        temperature pressure atoms) "freq_job"
      = some (RVal.dict (nn_freq_job raw linear energy mult temperature pressure
          (relaxOpt (ircOpt atoms))))
  ∧ hasTopKeys (nn_freq_job raw linear energy mult temperature pressure
        (tsOpt atoms)) = true
  ∧ getVib (nn_freq_job raw linear energy mult temperature pressure (tsOpt atoms))
        "vib_freqs"
      = some (RVal.ratList (vib_kept raw linear))
  ∧ (vib_kept raw false).length = raw.length - 6 :=
  ⟨rfl, rfl, rfl, rfl, rfl, rfl, vib_kept_length raw false⟩

/-- Every successful Gaussian base-job run produces a mapping with the
four top-level schema keys. -/
theorem base_job_ok_topkeys (outcome : CalcOutcome) (atoms : AtomsArg)
    (charge mult : Int) (defaults calc_swaps : Option ParamSet)
    (fields : JobResult) :
    ∀ r, _base_job outcome atoms charge mult defaults calc_swaps fields
        = Except.ok r → hasTopKeys r = true := by
  intro r hr
  cases outcome with
  | crashed m => simp [_base_job, run_calc] at hr
  | finished f log =>
      cases hl : parseLog log with
      | none => simp [_base_job, run_calc, cclib_summarize_run, hl] at hr
      | some e =>
          simp [_base_job, run_calc, cclib_summarize_run, hl] at hr
          subst hr
          rfl

/-- Claim C6: every job result produced by any recipe — Gaussian static and
relax, NewtonNet static, relax and frequency, and the composite TS, IRC and
quasi-IRC jobs — contains all four top-level keys `atoms`, `results`,
`natoms` and `spin_multiplicity`, with the job-specific keys (`vib`,
`thermo`, `freq_job`, `irc_job`) appearing as further entries holding
nested dict sub-results below the top level. -/
theorem job_result_schema_keys (outcome : CalcOutcome) (nproc : Int)
    (args : AtomsArg) (charge mult : Int) (xc basis : String) (freq : Bool)
    (swaps : Option ParamSet) (energy ircEnergy temperature pressure : ℚ)
    (o : Optimizer) (raw : List ℚ) (linear : Bool)
    (tsOpt ircOpt relaxOpt : AtomicStructure → AtomicStructure)
    (atoms : AtomicStructure) :
    (∀ r, static_job outcome nproc args charge mult xc basis swaps = Except.ok r →
        hasTopKeys r = true)
  ∧ (∀ r, relax_job outcome nproc args charge mult xc basis freq swaps = Except.ok r →
        hasTopKeys r = true)
  ∧ hasTopKeys (nn_static_job energy mult atoms) = true
  ∧ hasTopKeys (nn_relax_job o energy mult atoms) = true
  ∧ hasTopKeys (nn_freq_job raw linear energy mult temperature pressure atoms) = true
  ∧ hasTopKeys (ts_job tsOpt energy raw linear mult temperature pressure atoms) = true
  ∧ hasTopKeys (irc_job ircOpt energy raw linear mult temperature pressure atoms) = true
  ∧ hasTopKeys (quasi_irc_job ircOpt relaxOpt ircEnergy energy raw linear mult
        temperature pressure atoms) = true
  ∧ (∃ v, getR (nn_freq_job raw linear energy mult temperature pressure atoms) "vib"
        = some (RVal.dict v))
  ∧ (∃ v, getR (nn_freq_job raw linear energy mult temperature pressure atoms) "thermo"
        = some (RVal.dict v))
  ∧ (∃ v, getR (ts_job tsOpt energy raw linear mult temperature pressure atoms)
        "freq_job" = some (RVal.dict v))
  ∧ (∃ v, getR (quasi_irc_job ircOpt relaxOpt ircEnergy energy raw linear mult
        temperature pressure atoms) "irc_job" = some (RVal.dict v)) :=
  ⟨base_job_ok_topkeys outcome args charge mult
      (some (static_defaults nproc xc basis charge mult)) swaps
      [("name", RVal.str "Gaussian Static")],
   base_job_ok_topkeys outcome args charge mult
      (some (relax_defaults nproc xc basis charge mult freq)) swaps
      [("name", RVal.str "Gaussian Relax")],
   rfl, rfl, rfl, rfl, rfl, rfl,
   ⟨_, rfl⟩, ⟨_, rfl⟩, ⟨_, rfl⟩, ⟨_, rfl⟩⟩

/-- Claim C6, witness: the schema theorem applied at concrete inputs, with
the Gaussian static-job conjunct discharged on an actual successful run. -/
theorem job_result_schema_keys_witness :
    hasTopKeys [("atoms", RVal.atomsV demoAtoms),
      ("results", RVal.dict [("energy", RVal.rat 5)]),
      ("natoms", RVal.nat 2), ("spin_multiplicity", RVal.int 1),
      ("charge", RVal.int 0), ("name", RVal.str "Gaussian Static")] = true
  ∧ hasTopKeys (nn_static_job 5 1 demoAtoms) = true :=
  ⟨(job_result_schema_keys (CalcOutcome.finished demoAtoms (LogFile.complete 5)) 1
      (AtomsArg.plain demoAtoms) 0 1 "wb97x-d" "def2-tzvp" false Option.none
      5 5 298 1 demoOptimizer [] false id id id demoAtoms).1 _ rfl,
   (job_result_schema_keys (CalcOutcome.finished demoAtoms (LogFile.complete 5)) 1
      (AtomsArg.plain demoAtoms) 0 1 "wb97x-d" "def2-tzvp" false Option.none
      5 5 298 1 demoOptimizer [] false id id id demoAtoms).2.2.1⟩
